import Mathlib

/-!
Verification of the FloatChat session controller (`src/context/Context.jsx` with
the send paths of `src/components/Sidebar/Main/Main.jsx`).

The controller is embedded shallowly: the React component state becomes the
`State` structure, every `setX` call becomes a field update, `setTimeout`
callbacks become `Timer` values held in `timeoutRefs`, and the in-flight
`fetch` becomes a `FetchCtx` held in `pendingFetches` (its resolution is a
separate event, since other user actions can run while the request is
outstanding).  JavaScript closures capture the render-time values of
`isStopped` and `currentChatIndex`, so those captured values are stored in the
timer / fetch records.  Paths where the JavaScript would throw a `TypeError`
(spreading `undefined`) are modelled by returning `none`.
-/

/-- Characters treated as whitespace by `String.prototype.trim` (the forms that
occur in this development). -/
def isWhitespaceChar (c : Char) : Bool :=
  c == ' ' || c == '\t' || c == '\n' || c == '\r'

/-- Model of JavaScript `s.trim()`. -/
def jsTrim (s : String) : String :=
  String.mk (((s.data.dropWhile isWhitespaceChar).reverse.dropWhile isWhitespaceChar).reverse)

/-- Model of JavaScript `s.split(" ")`: split at every single space, keeping
empty fragments (`"".split(" ") = [""]`, `" a".split(" ") = ["", "a"]`). -/
def splitSpaceAux : List Char → List Char → List String
  | [], acc => [String.mk acc.reverse]
  | c :: cs, acc =>
      if c == ' ' then String.mk acc.reverse :: splitSpaceAux cs []
      else splitSpaceAux cs (c :: acc)

/-- Model of JavaScript `s.split(" ")`. -/
def jsSplitSpace (s : String) : List String := splitSpaceAux s.data []

/-- Model of JavaScript `s.substring(0, n)`. -/
def jsSubstring (s : String) (n : Nat) : String := String.mk (s.data.take n)

/-- A memory entry `{ question, answer }` sent back to the answering service. -/
structure QA where
  question : String
  answer : String
deriving Repr, DecidableEq, Inhabited

/-- A finalized exchange as stored in `messages` / `conversationHistory`:
`{ question, answer }` for text exchanges, `{ question, graph_path }` for
chart exchanges. -/
structure Message where
  question : String
  answer : Option String
  graph_path : Option String
deriving Repr, DecidableEq, Inhabited

/-- One chat session (an element of the `chats` array). -/
structure Chat where
  title : String
  messages : List Message
  memory : List QA
  isMemoryFull : Bool
deriving Repr, DecidableEq, Inhabited

/-- What a scheduled `setTimeout` callback will do when it fires. -/
inductive TimerKind where
  /-- A `delayPara` callback: append `word` to `resultData`. -/
  | token (word : String)
  /-- The finalize callback of `onSent`: commit `{question := q, answer := a}`
  under the chat index captured by the closure. -/
  | finalize (q : String) (a : String) (capturedIndex : Option Nat)
deriving Repr, DecidableEq

/-- A pending `setTimeout` entry of `timeoutRefs`.  `capturedStopped` is the
value of `isStopped` captured by the scheduling closure. -/
structure Timer where
  delay : Nat
  capturedStopped : Bool
  kind : TimerKind
deriving Repr, DecidableEq

/-- An outstanding `fetch` to the answering service.  `capturedIndex` and
`capturedStopped` are the render-time values of `currentChatIndex` and
`isStopped` captured by the `onSent` closure; `aborted` records whether the
request's `AbortController` was triggered. -/
structure FetchCtx where
  id : Nat
  userQuery : String
  capturedIndex : Option Nat
  capturedStopped : Bool
  aborted : Bool
deriving Repr, DecidableEq

/-- How a pending fetch resolves: a `graph_path` payload, a `message` payload,
a non-2xx status (the `!response.ok` throw), or a network error. -/
inductive Outcome where
  | text (msg : String)
  | graph (path : String)
  | httpError
  | netError
deriving Repr, DecidableEq

/-- The full component state of `ContextProvider`, plus the pending timers and
fetches that live in `timeoutRefs.current` / unresolved promises. -/
structure State where
  input : String
  recentPrompt : String
  prevPrompts : List String
  showResult : Bool
  loading : Bool
  resultData : String
  conversationHistory : List Message
  chats : List Chat
  currentChatIndex : Option Nat
  isStopped : Bool
  isThinkingMode : Bool
  currentChatIsFull : Bool
  timeoutRefs : List Timer
  pendingFetches : List FetchCtx
  abortId : Option Nat
  nextId : Nat
deriving Repr, DecidableEq

/-- `const memoryLimit = 10`. -/
def memoryLimit : Nat := 10

/-- The fixed apology committed on a transport failure. -/
def apologyMessage : String :=
  "Sorry, I\x27m having trouble connecting to my backend."

/-- The batch of `delayPara` timers scheduled by the loop
`for (i = 0; i < arr.length; i++) delayPara(i, arr[i] + " ")`:
token `i` gets delay `75 * i` and the closure-captured `isStopped`. -/
def delayParaBatch (stopped : Bool) : Nat → List String → List Timer
  | _, [] => []
  | i, w :: ws =>
      { delay := 75 * i, capturedStopped := stopped, kind := .token (w ++ " ") } ::
        delayParaBatch stopped (i + 1) ws

/-- The synchronous prefix of `onSent(prompt)`: the `currentChatIsFull` guard,
the transient-state resets, clearing `timeoutRefs`, and issuing the fetch
(which becomes a pending `FetchCtx`).  Returns `none` only on the unreachable
path where `currentChatIndex` is a dangling index (JavaScript would throw
reading `.memory` of `undefined`). -/
def sendStart (prompt : Option String) (s : State) : Option State :=
  if s.currentChatIsFull then some s
  else
    let userQuery := prompt.getD s.input
    let memOk : Option (List QA) :=
      match s.currentChatIndex with
      | none => some []
      | some i => (s.chats[i]?).map (fun c => c.memory)
    match memOk with
    | none => none
    | some _mem =>
        some { s with
          resultData := ""
          loading := true
          showResult := true
          isStopped := false
          timeoutRefs := []
          recentPrompt := userQuery
          pendingFetches := s.pendingFetches ++
            [{ id := s.nextId, userQuery := userQuery,
               capturedIndex := s.currentChatIndex,
               capturedStopped := s.isStopped, aborted := false }]
          abortId := some s.nextId
          nextId := s.nextId + 1 }

/-- Remove a resolved fetch from the pending set. -/
def removeFetch (l : List FetchCtx) (i : Nat) : List FetchCtx :=
  l.filter (fun f => f.id != i)

/-- Resolution of the awaited `fetch` inside `onSent`: the graph branch commits
immediately, the text branch schedules the `delayPara` timers and the finalize
timer, `!response.ok` and network errors hit the `catch` block (apology
commit), and a fetch whose controller was aborted rejects with `AbortError`
(the `catch` only logs).  `none` marks the unreachable path where the captured
chat index dangles (JavaScript would throw on `[...undefined.messages]`). -/
def resolveFetch (f : FetchCtx) (out : Outcome) (s : State) : Option State :=
  let s0 := { s with pendingFetches := removeFetch s.pendingFetches f.id }
  if f.aborted then some s0
  else
    match out with
    | .graph path =>
        let newMessage : Message :=
          { question := f.userQuery, answer := none, graph_path := some path }
        let s1 := { s0 with conversationHistory := s0.conversationHistory ++ [newMessage] }
        match f.capturedIndex with
        | none =>
            let c : Chat :=
              { title := jsSubstring f.userQuery 20, messages := [newMessage],
                memory := [], isMemoryFull := false }
            some { s1 with
              chats := s1.chats ++ [c]
              prevPrompts := s1.prevPrompts ++ [jsSubstring f.userQuery 20]
              currentChatIndex := some s1.chats.length
              loading := false
              resultData := ""
              input := "" }
        | some i =>
            match s1.chats[i]? with
            | none => none
            | some c =>
                some { s1 with
                  chats := s1.chats.set i { c with messages := c.messages ++ [newMessage] }
                  loading := false
                  resultData := ""
                  input := "" }
    | .text msg =>
        let words := jsSplitSpace msg
        some { s0 with
          timeoutRefs := s0.timeoutRefs ++ delayParaBatch f.capturedStopped 0 words ++
            [{ delay := 75 * words.length + 100, capturedStopped := f.capturedStopped,
               kind := .finalize f.userQuery msg f.capturedIndex }] }
    | .httpError =>
        some { s0 with
          conversationHistory := s0.conversationHistory ++
            [{ question := f.userQuery, answer := some apologyMessage, graph_path := none }]
          loading := false
          resultData := ""
          input := "" }
    | .netError =>
        some { s0 with
          conversationHistory := s0.conversationHistory ++
            [{ question := f.userQuery, answer := some apologyMessage, graph_path := none }]
          loading := false
          resultData := ""
          input := "" }

/-- Execution of a fired timer callback.  Token callbacks append their word to
`resultData` unless the captured `isStopped` was true; the finalize callback
commits the full exchange (creating a new chat when the captured index was
`null`), appends the memory entry, and re-evaluates the memory limit.  `none`
marks the unreachable dangling-index path. -/
def runTimer (t : Timer) (s : State) : Option State :=
  if t.capturedStopped then some s
  else
    match t.kind with
    | .token w => some { s with resultData := s.resultData ++ w }
    | .finalize q a idx =>
        let newMessage : Message := { question := q, answer := some a, graph_path := none }
        let s1 := { s with conversationHistory := s.conversationHistory ++ [newMessage] }
        match idx with
        | none =>
            let mem : List QA := [{ question := q, answer := a }]
            let c : Chat :=
              { title := jsSubstring q 20, messages := [newMessage], memory := mem,
                isMemoryFull := if memoryLimit ≤ mem.length then true else false }
            some { s1 with
              chats := s1.chats ++ [c]
              prevPrompts := s1.prevPrompts ++ [jsSubstring q 20]
              currentChatIndex := some s1.chats.length
              currentChatIsFull :=
                if memoryLimit ≤ mem.length then true else s1.currentChatIsFull
              loading := false
              resultData := ""
              input := "" }
        | some i =>
            match s1.chats[i]? with
            | none => none
            | some c =>
                let mem := c.memory ++ [{ question := q, answer := a }]
                some { s1 with
                  chats := s1.chats.set i
                    { c with
                      messages := c.messages ++ [newMessage]
                      memory := mem
                      isMemoryFull := if memoryLimit ≤ mem.length then true else c.isMemoryFull }
                  currentChatIsFull :=
                    if memoryLimit ≤ mem.length then true else s1.currentChatIsFull
                  loading := false
                  resultData := ""
                  input := "" }

/-- Fire the pending timer at position `k` of `timeoutRefs` (removing it and
running its callback).  `none` when there is no such timer. -/
def fireTimer (k : Nat) (s : State) : Option State :=
  match s.timeoutRefs[k]? with
  | none => none
  | some t => runTimer t { s with timeoutRefs := s.timeoutRefs.eraseIdx k }

/-- Fire the head timer `n` times in order (timers are pushed in increasing
delay order, so this is firing in schedule order). -/
def fireHeadN : Nat → State → Option State
  | 0, s => some s
  | n + 1, s => (fireTimer 0 s).bind (fireHeadN n)

/-- `stopGeneration`: clear every pending timer, abort the current controller,
commit the revealed partial text when `resultData.trim()` is truthy, reset the
transient state and restore the pending question into the input field.
Returns `none` on the path where the commit runs with `currentChatIndex` still
`null` (JavaScript: `nextChats[null]` is `undefined` and
`[...undefined.messages]` throws a `TypeError`). -/
def stopGeneration (s : State) : Option State :=
  let fetches := s.pendingFetches.map
    (fun f => if s.abortId = some f.id then { f with aborted := true } else f)
  let base := { s with
    loading := false
    timeoutRefs := []
    pendingFetches := fetches
    isStopped := false
    resultData := ""
    input := s.recentPrompt }
  if jsTrim s.resultData = "" then some base
  else
    let newMessage : Message :=
      { question := s.recentPrompt, answer := some s.resultData, graph_path := none }
    match s.currentChatIndex with
    | none => none
    | some i =>
        match s.chats[i]? with
        | none => none
        | some c =>
            some { base with
              conversationHistory := s.conversationHistory ++ [newMessage]
              chats := s.chats.set i { c with messages := c.messages ++ [newMessage] } }

/-- `newChat`: reset the transient exchange state and detach from the active
session.  Note that `timeoutRefs`, `pendingFetches` and the abort controller
are left untouched by the source. -/
def newChat (s : State) : State :=
  { s with
    loading := false
    showResult := false
    conversationHistory := []
    recentPrompt := ""
    resultData := ""
    currentChatIndex := none
    currentChatIsFull := false
    isThinkingMode := false }

/-- `openChat(index)`: silently ignore out-of-range indices, otherwise repoint
the active session and load its messages and fullness flag.  Timers and the
outstanding fetch are left untouched by the source. -/
def openChat (index : Int) (s : State) : State :=
  if index < 0 ∨ (s.chats.length : Int) ≤ index then s
  else
    let c := s.chats.getD index.toNat default
    { s with
      currentChatIndex := some index.toNat
      conversationHistory := c.messages
      showResult := true
      loading := false
      recentPrompt := ""
      resultData := ""
      currentChatIsFull := (c.isMemoryFull || false) }

/-- `handleSend` of `Main.jsx`: `onSent(); setInput('')`. -/
def handleSend (s : State) : Option State :=
  (sendStart none s).map (fun s1 => { s1 with input := "" })

/-- Whether the send icon is rendered by `Main.jsx`
(`loading ? stop : currentChatIsFull ? newChatButton : (input ? icon : null)`). -/
def sendIconVisible (s : State) : Bool :=
  !s.loading && !s.currentChatIsFull && s.input != ""

/-- `handleKeyPress` on Enter: `if (e.key === 'Enter' && input.trim()) handleSend()`. -/
def handleEnter (s : State) : Option State :=
  if jsTrim s.input = "" then some s else handleSend s

/-- The externally triggerable events: a user send, the arrival of a pending
response, the firing of a scheduled timer, stop, new chat, a sidebar switch,
and the thinking-mode toggle. -/
inductive Op where
  | send (prompt : Option String)
  | resolve (id : Nat) (out : Outcome)
  | fire (k : Nat)
  | stop
  | newchat
  | switch (index : Int)
  | toggle
deriving Repr, DecidableEq

/-- One event step.  `none` means the event does not exist in this state (no
such fetch / timer) or the source would throw. -/
def runOp (op : Op) (s : State) : Option State :=
  match op with
  | .send p => sendStart p s
  | .resolve i out =>
      match s.pendingFetches.find? (fun f => f.id == i) with
      | none => none
      | some f => resolveFetch f out s
  | .fire k => fireTimer k s
  | .stop => stopGeneration s
  | .newchat => some (newChat s)
  | .switch i => some (openChat i s)
  | .toggle => some { s with isThinkingMode := !s.isThinkingMode }

/-- Run a sequence of events from a given state. -/
def runFrom (s : State) : List Op → Option State
  | [] => some s
  | op :: ops =>
      match runOp op s with
      | none => none
      | some s1 => runFrom s1 ops

/-- The initial component state. -/
def initState : State :=
  { input := "", recentPrompt := "", prevPrompts := [], showResult := false,
    loading := false, resultData := "", conversationHistory := [], chats := [],
    currentChatIndex := none, isStopped := false, isThinkingMode := false,
    currentChatIsFull := false, timeoutRefs := [], pendingFetches := [],
    abortId := none, nextId := 0 }

/-- Run a sequence of events from the initial state. -/
def runOps (ops : List Op) : Option State := runFrom initState ops

/-- A state the controller can actually be in. -/
def Reachable (s : State) : Prop := ∃ ops, runOps ops = some s

/-- Whenever the active session is memory-full, the `currentChatIsFull` mirror
flag (the flag `onSent` actually checks) is set. -/
def ActiveFullSync (s : State) : Prop :=
  ∀ i c, s.currentChatIndex = some i → s.chats[i]? = some c →
    c.isMemoryFull = true → s.currentChatIsFull = true

/-- A finalized message carries exactly one of `answer` / `graph_path`. -/
def MsgOk (m : Message) : Prop := m.answer.isSome = !m.graph_path.isSome

/-- Every message stored in any session or in the displayed history is
well-formed. -/
def MsgsOk (s : State) : Prop :=
  (∀ c ∈ s.chats, ∀ m ∈ c.messages, MsgOk m) ∧ (∀ m ∈ s.conversationHistory, MsgOk m)

/-- The conjunction of the two inductive invariants. -/
def CtrlInv (s : State) : Prop := ActiveFullSync s ∧ MsgsOk s

/-- Concatenation of a token list, each token with its trailing separator. -/
def concatSep : List String → String
  | [] => ""
  | w :: ws => w ++ " " ++ concatSep ws

/-- The text revealed after `k` tokens of `msg` have been played back. -/
def revealedText (msg : String) (k : Nat) : String :=
  concatSep ((jsSplitSpace msg).take k)



/-- One full text exchange, as driven by a user: send, response arrival, and
the firing of the finalize timer (position 1: position 0 holds the single
token timer of the one-word answer). -/
def exchangeOps (fid : Nat) : List Op :=
  [.send (some "q"), .resolve fid (.text "r"), .fire 1]

/-- Ten completed exchanges in one session: fills the session's memory. -/
def fillTrace : List Op := (List.range 10).flatMap exchangeOps

/-- The session produced by `fillTrace`. -/
def fullChat : Chat :=
  { title := "q",
    messages := List.replicate 10 { question := "q", answer := some "r", graph_path := none },
    memory := List.replicate 10 { question := "q", answer := "r" },
    isMemoryFull := true }

/-- Nine completed exchanges (memory 9 of 10), then: a send whose fetch stays
outstanding, `newChat`, switching back to the session, a second send (also
outstanding), both responses arriving, and both finalize timers firing. -/
def doubleCommitTrace : List Op :=
  (List.range 9).flatMap exchangeOps ++
    [.send (some "q"), .newchat, .switch 0, .send (some "q"),
     .resolve 9 (.text "r"), .resolve 10 (.text "r"), .fire 1, .fire 2]

/-- A state with one committed session open: one chat, active index 0. -/
def oneChatState : State :=
  { initState with
    chats := [{ title := "t", messages := [], memory := [], isMemoryFull := false }],
    currentChatIndex := some 0,
    showResult := true }

/-- The (empty) session of `oneChatState`. -/
def oneChat : Chat := { title := "t", messages := [], memory := [], isMemoryFull := false }

/-! ### Invariant preservation -/

theorem msgOk_text (q a : String) :
    MsgOk { question := q, answer := some a, graph_path := none } := by
  simp [MsgOk]

theorem msgOk_graph (q p : String) :
    MsgOk { question := q, answer := none, graph_path := some p } := by
  simp [MsgOk]

theorem mem_of_getElem?_chat {l : List Chat} {i : Nat} {c : Chat}
    (h : l[i]? = some c) : c ∈ l := by
  obtain ⟨hlt, heq⟩ := List.getElem?_eq_some_iff.mp h
  exact heq ▸ List.getElem_mem hlt

theorem activeFullSync_frame {s : State} (hA : ActiveFullSync s) {s2 : State}
    (h1 : s2.chats = s.chats)
    (h2 : s2.currentChatIndex = s.currentChatIndex)
    (h3 : s2.currentChatIsFull = s.currentChatIsFull) : ActiveFullSync s2 := by
  intro i c hi hc hf
  rw [h2] at hi
  rw [h1] at hc
  rw [h3]
  exact hA i c hi hc hf

theorem msgsOk_frame {s : State} (hM : MsgsOk s) {s2 : State} (h1 : s2.chats = s.chats)
    (h2 : s2.conversationHistory = s.conversationHistory) : MsgsOk s2 := by
  refine ⟨fun c hc m hm => hM.1 c (h1 ▸ hc) m hm, fun m hm => hM.2 m (h2 ▸ hm)⟩

theorem msgsOk_conv_append {s : State} (hM : MsgsOk s) {s2 : State} {m0 : Message}
    (h1 : s2.chats = s.chats)
    (h2 : s2.conversationHistory = s.conversationHistory ++ [m0])
    (hm0 : MsgOk m0) : MsgsOk s2 := by
  refine ⟨fun c hc m hm => hM.1 c (h1 ▸ hc) m hm, fun m hm => ?_⟩
  rw [h2] at hm
  rcases List.mem_append.mp hm with h | h
  · exact hM.2 m h
  · rw [List.mem_singleton.mp h]
    exact hm0

theorem msgsOk_chats_concat {s : State} (hM : MsgsOk s) {s2 : State} {c0 : Chat} {m0 : Message}
    (h1 : s2.chats = s.chats ++ [c0]) (hc0 : ∀ m ∈ c0.messages, MsgOk m)
    (h2 : s2.conversationHistory = s.conversationHistory ++ [m0])
    (hm0 : MsgOk m0) : MsgsOk s2 := by
  constructor
  · intro c hc m hm
    rw [h1] at hc
    rcases List.mem_append.mp hc with h | h
    · exact hM.1 c h m hm
    · rw [List.mem_singleton.mp h] at hm
      exact hc0 m hm
  · intro m hm
    rw [h2] at hm
    rcases List.mem_append.mp hm with h | h
    · exact hM.2 m h
    · rw [List.mem_singleton.mp h]
      exact hm0

theorem msgsOk_chats_set {s : State} (hM : MsgsOk s) {i : Nat} {c : Chat}
    (hc : s.chats[i]? = some c) {s2 : State} {c' : Chat} {m0 : Message}
    (h1 : s2.chats = s.chats.set i c')
    (hmsg : c'.messages = c.messages ++ [m0]) (hm0 : MsgOk m0)
    (h2 : s2.conversationHistory = s.conversationHistory ++ [m0]) : MsgsOk s2 := by
  constructor
  · intro cc hcc m hm
    rw [h1] at hcc
    rcases List.mem_or_eq_of_mem_set hcc with h | h
    · exact hM.1 cc h m hm
    · subst h
      rw [hmsg] at hm
      rcases List.mem_append.mp hm with h | h
      · exact hM.1 c (mem_of_getElem?_chat hc) m h
      · rw [List.mem_singleton.mp h]
        exact hm0
  · intro m hm
    rw [h2] at hm
    rcases List.mem_append.mp hm with h | h
    · exact hM.2 m h
    · rw [List.mem_singleton.mp h]
      exact hm0

theorem activeFullSync_set {s : State} (hA : ActiveFullSync s) {i : Nat} {c : Chat}
    (hc : s.chats[i]? = some c) {s2 : State} {c' : Chat}
    (h1 : s2.chats = s.chats.set i c')
    (h2 : s2.currentChatIndex = s.currentChatIndex)
    (hmono : s.currentChatIsFull = true → s2.currentChatIsFull = true)
    (hnew : c'.isMemoryFull = true → s2.currentChatIsFull = true ∨ c.isMemoryFull = true) :
    ActiveFullSync s2 := by
  intro j cj hj hcj hfj
  rw [h2] at hj
  rw [h1] at hcj
  by_cases hij : i = j
  · subst hij
    have hlt : i < s.chats.length := (List.getElem?_eq_some_iff.mp hc).1
    rw [List.getElem?_set_self hlt] at hcj
    cases Option.some.inj hcj
    rcases hnew hfj with h | h
    · exact h
    · exact hmono (hA i c hj hc h)
  · rw [List.getElem?_set_ne hij] at hcj
    exact hmono (hA j cj hj hcj hfj)

theorem activeFullSync_concat (s : State) {s2 : State} {c0 : Chat}
    (h1 : s2.chats = s.chats ++ [c0])
    (h2 : s2.currentChatIndex = some s.chats.length)
    (hfull : c0.isMemoryFull = false) : ActiveFullSync s2 := by
  intro j cj hj hcj hfj
  rw [h2] at hj
  cases Option.some.inj hj
  rw [h1, List.getElem?_concat_length] at hcj
  cases Option.some.inj hcj
  rw [hfull] at hfj
  exact absurd hfj (by simp)

theorem sendStart_inv {p : Option String} {s s2 : State}
    (h : sendStart p s = some s2) (hI : CtrlInv s) : CtrlInv s2 := by
  obtain ⟨hA, hM⟩ := hI
  simp only [sendStart] at h
  split at h
  · cases Option.some.inj h
    exact ⟨hA, hM⟩
  · split at h
    · exact Option.noConfusion h
    · cases Option.some.inj h
      exact ⟨activeFullSync_frame hA rfl rfl rfl, msgsOk_frame hM rfl rfl⟩

theorem resolveFetch_inv {f : FetchCtx} {out : Outcome} {s s2 : State}
    (h : resolveFetch f out s = some s2) (hI : CtrlInv s) : CtrlInv s2 := by
  obtain ⟨hA, hM⟩ := hI
  cases out with
  | text msg =>
      simp only [resolveFetch] at h
      split at h
      · cases Option.some.inj h
        exact ⟨activeFullSync_frame hA rfl rfl rfl, msgsOk_frame hM rfl rfl⟩
      · cases Option.some.inj h
        exact ⟨activeFullSync_frame hA rfl rfl rfl, msgsOk_frame hM rfl rfl⟩
  | httpError =>
      simp only [resolveFetch] at h
      split at h
      · cases Option.some.inj h
        exact ⟨activeFullSync_frame hA rfl rfl rfl, msgsOk_frame hM rfl rfl⟩
      · cases Option.some.inj h
        exact ⟨activeFullSync_frame hA rfl rfl rfl,
          msgsOk_conv_append hM rfl rfl (msgOk_text _ _)⟩
  | netError =>
      simp only [resolveFetch] at h
      split at h
      · cases Option.some.inj h
        exact ⟨activeFullSync_frame hA rfl rfl rfl, msgsOk_frame hM rfl rfl⟩
      · cases Option.some.inj h
        exact ⟨activeFullSync_frame hA rfl rfl rfl,
          msgsOk_conv_append hM rfl rfl (msgOk_text _ _)⟩
  | graph path =>
      simp only [resolveFetch] at h
      split at h
      · cases Option.some.inj h
        exact ⟨activeFullSync_frame hA rfl rfl rfl, msgsOk_frame hM rfl rfl⟩
      · cases hfc : f.capturedIndex with
        | none =>
            rw [hfc] at h
            cases Option.some.inj h
            constructor
            · exact activeFullSync_concat s rfl rfl rfl
            · refine msgsOk_chats_concat hM rfl ?_ rfl (msgOk_graph _ _)
              intro m hm
              rw [List.mem_singleton.mp hm]
              exact msgOk_graph _ _
        | some i =>
            rw [hfc] at h
            dsimp only at h
            cases hcc : s.chats[i]? with
            | none =>
                rw [hcc] at h
                exact Option.noConfusion h
            | some c =>
                rw [hcc] at h
                cases Option.some.inj h
                constructor
                · exact activeFullSync_set hA hcc rfl rfl (fun x => x) (fun x => Or.inr x)
                · exact msgsOk_chats_set hM hcc rfl rfl (msgOk_graph _ _) rfl

theorem runTimer_inv {t : Timer} {s s2 : State}
    (h : runTimer t s = some s2) (hI : CtrlInv s) : CtrlInv s2 := by
  obtain ⟨hA, hM⟩ := hI
  obtain ⟨d, cs, kind⟩ := t
  cases cs with
  | true =>
      simp only [runTimer] at h
      cases Option.some.inj h
      exact ⟨hA, hM⟩
  | false =>
      cases kind with
      | token w =>
          simp only [runTimer] at h
          cases Option.some.inj h
          exact ⟨activeFullSync_frame hA rfl rfl rfl, msgsOk_frame hM rfl rfl⟩
      | finalize q a idx =>
          cases idx with
          | none =>
              simp only [runTimer] at h
              cases Option.some.inj h
              constructor
              · refine activeFullSync_concat s rfl rfl ?_
                norm_num [memoryLimit]
              · refine msgsOk_chats_concat hM rfl ?_ rfl (msgOk_text _ _)
                intro m hm
                rw [List.mem_singleton.mp hm]
                exact msgOk_text _ _
          | some i =>
              simp only [runTimer] at h
              cases hcc : s.chats[i]? with
              | none =>
                  rw [hcc] at h
                  exact Option.noConfusion h
              | some c =>
                  rw [hcc] at h
                  cases Option.some.inj h
                  constructor
                  · refine activeFullSync_set hA hcc rfl rfl ?_ ?_
                    · intro hfl
                      dsimp only
                      split
                      · rfl
                      · exact hfl
                    · intro hfull
                      dsimp only at hfull
                      split at hfull
                      · rename_i hp
                        left
                        dsimp only
                        rw [if_pos hp]
                      · right
                        exact hfull
                  · exact msgsOk_chats_set hM hcc rfl rfl (msgOk_text _ _) rfl

theorem stopGeneration_inv {s s2 : State}
    (h : stopGeneration s = some s2) (hI : CtrlInv s) : CtrlInv s2 := by
  obtain ⟨hA, hM⟩ := hI
  simp only [stopGeneration] at h
  split at h
  · cases Option.some.inj h
    exact ⟨activeFullSync_frame hA rfl rfl rfl, msgsOk_frame hM rfl rfl⟩
  · cases hix : s.currentChatIndex with
    | none =>
        rw [hix] at h
        exact Option.noConfusion h
    | some i =>
        rw [hix] at h
        dsimp only at h
        cases hcc : s.chats[i]? with
        | none =>
            rw [hcc] at h
            exact Option.noConfusion h
        | some c =>
            rw [hcc] at h
            cases Option.some.inj h
            exact ⟨activeFullSync_set hA hcc rfl hix.symm (fun x => x) (fun x => Or.inr x),
              msgsOk_chats_set hM hcc rfl rfl (msgOk_text _ _) rfl⟩

theorem newChat_inv {s : State} (hI : CtrlInv s) : CtrlInv (newChat s) := by
  obtain ⟨_, hM⟩ := hI
  constructor
  · intro i c hi
    exact Option.noConfusion hi
  · exact ⟨fun c hc m hm => hM.1 c hc m hm, fun m hm => absurd hm (by simp [newChat])⟩

theorem openChat_inv {idx : Int} {s : State} (hI : CtrlInv s) : CtrlInv (openChat idx s) := by
  obtain ⟨hA, hM⟩ := hI
  unfold openChat
  split
  · exact ⟨hA, hM⟩
  · rename_i hguard
    have hlt : idx.toNat < s.chats.length := by
      push_neg at hguard
      omega
    constructor
    · intro i c hi hc hf
      cases Option.some.inj hi
      have hgd : s.chats.getD idx.toNat default = c := by
        rw [List.getD_eq_getElem?_getD, hc]
        rfl
      show (s.chats.getD idx.toNat default).isMemoryFull || false = true
      rw [hgd, hf]
      rfl
    · constructor
      · exact fun c hc m hm => hM.1 c hc m hm
      · intro m hm
        have hmem : s.chats.getD idx.toNat default ∈ s.chats := by
          rw [List.getD_eq_getElem?_getD, List.getElem?_eq_getElem hlt]
          exact List.getElem_mem hlt
        exact hM.1 _ hmem m hm

theorem runOp_inv {op : Op} {s s2 : State}
    (h : runOp op s = some s2) (hI : CtrlInv s) : CtrlInv s2 := by
  cases op with
  | send p => exact sendStart_inv h hI
  | resolve i out =>
      simp only [runOp] at h
      split at h
      · exact Option.noConfusion h
      · exact resolveFetch_inv h hI
  | fire k =>
      simp only [runOp, fireTimer] at h
      split at h
      · exact Option.noConfusion h
      · exact runTimer_inv h
          ⟨activeFullSync_frame hI.1 rfl rfl rfl, msgsOk_frame hI.2 rfl rfl⟩
  | stop => exact stopGeneration_inv h hI
  | newchat =>
      cases Option.some.inj h
      exact newChat_inv hI
  | switch i =>
      cases Option.some.inj h
      exact openChat_inv hI
  | toggle =>
      cases Option.some.inj h
      exact ⟨activeFullSync_frame hI.1 rfl rfl rfl, msgsOk_frame hI.2 rfl rfl⟩

theorem runFrom_inv : ∀ (ops : List Op) (s s2 : State),
    CtrlInv s → runFrom s ops = some s2 → CtrlInv s2 := by
  intro ops
  induction ops with
  | nil =>
      intro s s2 hI h
      cases Option.some.inj h
      exact hI
  | cons op ops ih =>
      intro s s2 hI h
      simp only [runFrom] at h
      split at h
      · exact Option.noConfusion h
      · rename_i s1 hop
        exact ih s1 s2 (runOp_inv hop hI) h

theorem ctrlInv_init : CtrlInv initState := by
  constructor
  · intro i c hi
    exact Option.noConfusion hi
  · exact ⟨fun c hc => absurd hc (by simp [initState]), fun m hm => absurd hm (by simp [initState])⟩

theorem reachable_inv {s : State} (h : Reachable s) : CtrlInv s := by
  obtain ⟨ops, hops⟩ := h
  exact runFrom_inv ops initState s ctrlInv_init hops

/-! ### Playback -/

theorem fireHeadN_delayPara :
    ∀ (k : Nat) (ws : List String) (i : Nat) (rest : List Timer) (s : State),
      s.timeoutRefs = delayParaBatch false i ws ++ rest → k ≤ ws.length →
      fireHeadN k s = some { s with
        timeoutRefs := delayParaBatch false (i + k) (ws.drop k) ++ rest,
        resultData := s.resultData ++ concatSep (ws.take k) } := by
  intro k
  induction k with
  | zero =>
      intro ws i rest s h hk
      simp only [fireHeadN, Nat.add_zero, List.drop_zero, List.take_zero, concatSep,
        String.append_empty, ← h]
  | succ k ih =>
      intro ws i rest s h hk
      cases ws with
      | nil => simp at hk
      | cons w ws =>
          simp only [fireHeadN]
          have h0 : fireTimer 0 s = some { s with
              timeoutRefs := delayParaBatch false (i + 1) ws ++ rest,
              resultData := s.resultData ++ (w ++ " ") } := by
            simp [fireTimer, h, delayParaBatch, runTimer]
          rw [h0]
          have hrec := ih ws (i + 1) rest
            { s with timeoutRefs := delayParaBatch false (i + 1) ws ++ rest,
                     resultData := s.resultData ++ (w ++ " ") } rfl
            (by simp only [List.length_cons] at hk; omega)
          simp only [Option.some_bind]
          rw [hrec]
          have hi : i + 1 + k = i + (k + 1) := by omega
          simp only [hi, List.drop_succ_cons, List.take_succ_cons, concatSep,
            String.append_assoc]

/-! ### Claims -/

/-- C10: for every index outside the valid range `[0, chats.length)`,
`openChat` is a silent no-op: the active index, the session list, and all
transient exchange state are left unchanged (the whole state is equal). -/
theorem c10_openChat_out_of_range_noop (s : State) (index : Int)
    (h : index < 0 ∨ (s.chats.length : Int) ≤ index) : openChat index s = s := by
  unfold openChat
  rw [if_pos h]

/-- C10 witness: switching to index -1 of the empty initial session list
leaves the state unchanged. -/
theorem c10_openChat_out_of_range_noop_witness : openChat (-1) initState = initState :=
  c10_openChat_out_of_range_noop initState (-1) (Or.inl (by norm_num))

/-- C7: in any reachable state whose active session is memory-full, `onSent`
returns the state unchanged: it mutates neither messages, memory, nor the
loading flag, and issues no network request (the pending-fetch set is part of
the unchanged state). -/
theorem c7_send_rejected_when_full (s : State) (i : Nat) (c : Chat) (p : Option String)
    (hreach : Reachable s) (hidx : s.currentChatIndex = some i)
    (hc : s.chats[i]? = some c) (hfull : c.isMemoryFull = true) :
    sendStart p s = some s := by
  have hflag : s.currentChatIsFull = true :=
    (reachable_inv hreach).1 i c hidx hc hfull
  unfold sendStart
  rw [if_pos hflag]

/-- C7 witness: after ten completed exchanges the active session is full and a
further send is a no-op. -/
theorem c7_send_rejected_when_full_witness :
    sendStart (some "x") ((runOps fillTrace).getD initState) =
      some ((runOps fillTrace).getD initState) :=
  c7_send_rejected_when_full _ 0 fullChat (some "x") ⟨fillTrace, rfl⟩ rfl rfl rfl

/-- C6: when the service call of a (non-aborted) send fails — network error or
non-2xx status — the controller appends the fixed apology message as the
answer of that exchange to the displayed conversation, clears `loading`
(back to Idle), and leaves the session list and the fullness guard untouched,
so the session remains usable for further sends. -/
theorem c6_failure_commits_apology (s : State) (f : FetchCtx) (out : Outcome)
    (hab : f.aborted = false)
    (hout : out = Outcome.httpError ∨ out = Outcome.netError) :
    resolveFetch f out s = some { s with
        conversationHistory := s.conversationHistory ++
          [{ question := f.userQuery, answer := some apologyMessage, graph_path := none }],
        loading := false,
        resultData := "",
        input := "",
        pendingFetches := removeFetch s.pendingFetches f.id } ∧
      (resolveFetch f out s).map State.chats = some s.chats ∧
      (resolveFetch f out s).map State.currentChatIsFull = some s.currentChatIsFull ∧
      (resolveFetch f out s).map State.loading = some false := by
  have hmain : resolveFetch f out s = some { s with
      conversationHistory := s.conversationHistory ++
        [{ question := f.userQuery, answer := some apologyMessage, graph_path := none }],
      loading := false,
      resultData := "",
      input := "",
      pendingFetches := removeFetch s.pendingFetches f.id } := by
    rcases hout with h | h <;> subst h <;> simp [resolveFetch, hab]
  refine ⟨hmain, ?_, ?_, ?_⟩ <;> rw [hmain] <;> rfl

/-- C6 witness: a non-2xx response on the one-chat state commits the apology
and returns to Idle. -/
theorem c6_failure_commits_apology_witness :
    resolveFetch { id := 5, userQuery := "q", capturedIndex := some 0,
                   capturedStopped := false, aborted := false }
        Outcome.httpError oneChatState =
      some { oneChatState with
        conversationHistory :=
          [{ question := "q", answer := some apologyMessage, graph_path := none }],
        loading := false, resultData := "", input := "", pendingFetches := [] } :=
  (c6_failure_commits_apology oneChatState
    { id := 5, userQuery := "q", capturedIndex := some 0,
      capturedStopped := false, aborted := false } Outcome.httpError rfl (Or.inl rfl)).1

/-- C1: the claimed cancellation does not happen.  After a send and a text
response, `newChat` leaves both scheduled timers pending (it clears neither
`timeoutRefs` nor the abort controller); the finalize callback then fires as a
non-no-op: it commits the stale answer, creating a session for it, repointing
`currentChatIndex` to it, and appending the stale message to the freshly
cleared displayed history.  This evaluates the code at the failing input of
the claim. -/
theorem c1_newChat_leaves_stale_timers :
    (runOps [.send (some "q"), .resolve 0 (.text "hi"), .newchat]).map
        (fun s => s.timeoutRefs.length) = some 2 ∧
    (runOps [.send (some "q"), .resolve 0 (.text "hi"), .newchat, .fire 1]).map
        (fun s => (s.conversationHistory, s.chats, s.currentChatIndex)) =
      some ([{ question := "q", answer := some "hi", graph_path := none }],
        [{ title := "q",
           messages := [{ question := "q", answer := some "hi", graph_path := none }],
           memory := [{ question := "q", answer := "hi" }], isMemoryFull := false }],
        some 0) :=
  ⟨rfl, rfl⟩

/-- C2: the memory bound is violated.  Nine committed exchanges leave the
session at memory 9; a send whose response is still outstanding survives
`newChat` and a switch back (neither aborts it); a second send then passes the
guard, and when both responses arrive, both finalize commits append to the
same session: its memory reaches 11 > memoryLimit = 10. -/
theorem c2_memory_exceeds_limit :
    (runOps doubleCommitTrace).map (fun s => s.chats.map (fun c => c.memory.length)) =
      some [11] ∧ memoryLimit < 11 :=
  ⟨rfl, by norm_num [memoryLimit]⟩

/-- C4: stopping during the very first exchange of a fresh chat crashes
instead of committing.  After a send from the initial state, a text response,
and the first token fired, the revealed text is "hi " (non-blank) and
`currentChatIndex` is still `none`; `stopGeneration` then dereferences
`chats[null]` — modelled as `none` (the JavaScript throws a `TypeError` on
`[...undefined.messages]`). -/
theorem c4_stop_on_fresh_chat_crashes :
    (runOps [.send (some "q"), .resolve 0 (.text "hi there"), .fire 0]).map
        (fun s => (s.resultData, s.currentChatIndex)) = some ("hi ", none) ∧
    runOps [.send (some "q"), .resolve 0 (.text "hi there"), .fire 0, .stop] = none :=
  ⟨rfl, rfl⟩

/-- C5 counterexample: for the response "hi there" the token timers are
scheduled at delays 0 and 75 (token i at 75·i with i starting from 0), not at
75 and 150 as the claim states: the callback revealing "hi " carries delay 0,
and no callback is scheduled at delay 150.  (The finalize commit at 250
matches the claim.) -/
theorem c5_counterexample_token_schedule :
    (runOps [.send (some "hello world"), .resolve 0 (.text "hi there")]).map
        (fun s => s.timeoutRefs.map (fun t => (t.delay, t.kind))) =
      some [(0, TimerKind.token "hi "), (75, TimerKind.token "there "),
        (250, TimerKind.finalize "hello world" "hi there" none)] ∧
    (runOps [.send (some "hello world"), .resolve 0 (.text "hi there")]).map
        (fun s => (s.timeoutRefs.map Timer.delay).contains 150) = some false :=
  ⟨rfl, rfl⟩

/-- C5 (amended): playback of "hi there" with delayPerToken 75 schedules token
i at 75·i from playback start (0-based): "hi " is emitted at t ≈ 0 and
"hi there " at t ≈ 75; completion and commit of the full exchange occur at
t ≈ 250 = 2·75 + 100 (token count times the per-token delay plus the fixed
tail margin), as witnessed by firing the timers in schedule order. -/
theorem c5_playback_schedule :
    (runOps [.send (some "hello world"), .resolve 0 (.text "hi there")]).map
        (fun s => s.timeoutRefs.map (fun t => (t.delay, t.kind))) =
      some [(0, TimerKind.token "hi "), (75, TimerKind.token "there "),
        (250, TimerKind.finalize "hello world" "hi there" none)] ∧
    ((runOps [.send (some "hello world"), .resolve 0 (.text "hi there")]).bind
        (fireHeadN 1)).map State.resultData = some "hi " ∧
    ((runOps [.send (some "hello world"), .resolve 0 (.text "hi there")]).bind
        (fireHeadN 2)).map State.resultData = some "hi there " ∧
    ((runOps [.send (some "hello world"), .resolve 0 (.text "hi there")]).bind
        (fireHeadN 3)).map (fun s => (s.chats.map Chat.messages, s.loading)) =
      some ([[{ question := "hello world", answer := some "hi there", graph_path := none }]],
        false) :=
  ⟨rfl, rfl, rfl, rfl⟩

/-- C8 counterexample: a whitespace-only query is not rejected.  With input
" " (trimmed text empty) in the fresh state, the send icon is rendered, and
`handleSend` mutates the state: `loading` becomes true and a request is
issued. -/
theorem c8_counterexample_whitespace_send :
    sendIconVisible { initState with input := " " } = true ∧
    (handleSend { initState with input := " " }).map
        (fun s => (s.loading, s.pendingFetches.length, s.recentPrompt)) =
      some (true, 1, " ") :=
  ⟨rfl, rfl⟩

/-- C8 (amended): only the empty string is blocked, and only by the UI: the
send icon is not rendered when `input` is empty, and Enter is guarded by
`input.trim()`; the controller itself checks only the memory-full flag, so a
whitespace-only (empty-trimmed but non-empty) query proceeds — `loading` is
set and a request is issued. -/
theorem c8_empty_query_guards (s : State) :
    (s.input = "" → sendIconVisible s = false) ∧
    (jsTrim s.input = "" → handleEnter s = some s) ∧
    (s.currentChatIsFull = false → s.currentChatIndex = none →
      (sendStart (some " ") s).map (fun s1 => (s1.loading, s1.pendingFetches.length)) =
        some (true, s.pendingFetches.length + 1)) := by
  refine ⟨?_, ?_, ?_⟩
  · intro h
    simp [sendIconVisible, h]
  · intro h
    simp [handleEnter, h]
  · intro hful hidx
    simp [sendStart, hful, hidx]

/-- C8 witness: the guards evaluated in the initial state. -/
theorem c8_empty_query_guards_witness :
    sendIconVisible initState = false ∧ handleEnter initState = some initState ∧
    (sendStart (some " ") initState).map
        (fun s1 => (s1.loading, s1.pendingFetches.length)) = some (true, 1) :=
  ⟨(c8_empty_query_guards initState).1 rfl, (c8_empty_query_guards initState).2.1 rfl,
    (c8_empty_query_guards initState).2.2 rfl rfl⟩

/-- C9: round-trip of a commit.  Firing the finalize callback of a text
exchange appends exactly the committed pair as `{question, answer}` (with no
chart reference) to the session's messages, with the matching memory entry;
resolving a chart response appends exactly `{question, graph_path}` with no
answer key and no memory entry; and in every reachable state every finalized
message (in any session or in the displayed history) carries exactly one of
`answer` / `graph_path`. -/
theorem c9_commit_roundtrip :
    (∀ (s : State) (q a : String) (d i : Nat) (c : Chat),
      s.chats[i]? = some c →
      ∃ s2, runTimer { delay := d, capturedStopped := false,
                       kind := .finalize q a (some i) } s = some s2 ∧
        ∃ c2, s2.chats[i]? = some c2 ∧
          c2.messages = c.messages ++
            [{ question := q, answer := some a, graph_path := none }] ∧
          c2.memory = c.memory ++ [{ question := q, answer := a }]) ∧
    (∀ (s : State) (ident : Nat) (q path : String) (i : Nat) (c : Chat),
      s.chats[i]? = some c →
      ∃ s2, resolveFetch { id := ident, userQuery := q, capturedIndex := some i,
                           capturedStopped := false, aborted := false }
          (.graph path) s = some s2 ∧
        ∃ c2, s2.chats[i]? = some c2 ∧
          c2.messages = c.messages ++
            [{ question := q, answer := none, graph_path := some path }] ∧
          c2.memory = c.memory) ∧
    (∀ s : State, Reachable s →
      (∀ c ∈ s.chats, ∀ m ∈ c.messages, MsgOk m) ∧
        ∀ m ∈ s.conversationHistory, MsgOk m) := by
  refine ⟨?_, ?_, ?_⟩
  · intro s q a d i c hc
    have hlt : i < s.chats.length := (List.getElem?_eq_some_iff.mp hc).1
    have hrun : runTimer { delay := d, capturedStopped := false,
                           kind := .finalize q a (some i) } s = some { s with
          conversationHistory := s.conversationHistory ++
            [{ question := q, answer := some a, graph_path := none }],
          chats := s.chats.set i
            { title := c.title,
              messages := c.messages ++
                [{ question := q, answer := some a, graph_path := none }],
              memory := c.memory ++ [({ question := q, answer := a } : QA)],
              isMemoryFull :=
                if memoryLimit ≤ (c.memory ++ [({ question := q, answer := a } : QA)]).length
                then true else c.isMemoryFull },
          currentChatIsFull :=
            if memoryLimit ≤ (c.memory ++ [({ question := q, answer := a } : QA)]).length
            then true else s.currentChatIsFull,
          loading := false, resultData := "", input := "" } := by
      simp only [runTimer]
      rw [hc]
      rfl
    refine ⟨_, hrun, ?_⟩
    dsimp only
    rw [List.getElem?_set_self hlt]
    exact ⟨_, rfl, rfl, rfl⟩
  · intro s ident q path i c hc
    have hlt : i < s.chats.length := (List.getElem?_eq_some_iff.mp hc).1
    have hrun : resolveFetch { id := ident, userQuery := q, capturedIndex := some i,
                               capturedStopped := false, aborted := false }
        (.graph path) s = some { s with
          pendingFetches := removeFetch s.pendingFetches ident,
          conversationHistory := s.conversationHistory ++
            [{ question := q, answer := none, graph_path := some path }],
          chats := s.chats.set i
            { title := c.title,
              messages := c.messages ++
                [{ question := q, answer := none, graph_path := some path }],
              memory := c.memory, isMemoryFull := c.isMemoryFull },
          loading := false, resultData := "", input := "" } := by
      simp only [resolveFetch]
      rw [hc]
      rfl
    refine ⟨_, hrun, ?_⟩
    dsimp only
    rw [List.getElem?_set_self hlt]
    exact ⟨_, rfl, rfl, rfl⟩
  · intro s hreach
    exact (reachable_inv hreach).2

/-- C9 witness: both commit shapes evaluated on the one-chat state, plus the
exactly-one invariant in the initial state. -/
theorem c9_commit_roundtrip_witness :
    (∃ s2, runTimer { delay := 175, capturedStopped := false,
                      kind := .finalize "q" "a" (some 0) } oneChatState = some s2 ∧
      ∃ c2, s2.chats[0]? = some c2 ∧
        c2.messages = [{ question := "q", answer := some "a", graph_path := none }] ∧
        c2.memory = [{ question := "q", answer := "a" }]) ∧
    (∃ s2, resolveFetch { id := 7, userQuery := "q", capturedIndex := some 0,
                          capturedStopped := false, aborted := false }
        (.graph "g.png") oneChatState = some s2 ∧
      ∃ c2, s2.chats[0]? = some c2 ∧
        c2.messages = [{ question := "q", answer := none, graph_path := some "g.png" }] ∧
        c2.memory = []) ∧
    ((∀ c ∈ initState.chats, ∀ m ∈ c.messages, MsgOk m) ∧
      ∀ m ∈ initState.conversationHistory, MsgOk m) :=
  ⟨c9_commit_roundtrip.1 oneChatState "q" "a" 175 0 oneChat rfl,
    c9_commit_roundtrip.2.1 oneChatState 7 "q" "g.png" 0 oneChat rfl,
    c9_commit_roundtrip.2.2 initState ⟨[], rfl⟩⟩

/-- `stopGeneration` with non-blank revealed text and a valid active session:
commits the partial text to the session and the displayed history, restores
the question into the input field, clears timers and transient state. -/
theorem stopGeneration_commit (s : State) (i : Nat) (c : Chat)
    (hidx : s.currentChatIndex = some i) (hc : s.chats[i]? = some c)
    (hnb : jsTrim s.resultData ≠ "") :
    stopGeneration s = some { s with
      loading := false,
      timeoutRefs := [],
      pendingFetches := s.pendingFetches.map
        (fun f => if s.abortId = some f.id then { f with aborted := true } else f),
      isStopped := false,
      resultData := "",
      input := s.recentPrompt,
      conversationHistory := s.conversationHistory ++
        [{ question := s.recentPrompt, answer := some s.resultData, graph_path := none }],
      chats := s.chats.set i
        { title := c.title,
          messages := c.messages ++
            [{ question := s.recentPrompt, answer := some s.resultData, graph_path := none }],
          memory := c.memory, isMemoryFull := c.isMemoryFull } } := by
  simp only [stopGeneration]
  rw [if_neg hnb, hidx]
  dsimp only
  rw [hc]

/-- `stopGeneration` with blank revealed text: the exchange is discarded (no
session or history mutation), the question is restored into the input field,
timers are cleared. -/
theorem stopGeneration_discard (s : State) (hb : jsTrim s.resultData = "") :
    stopGeneration s = some { s with
      loading := false,
      timeoutRefs := [],
      pendingFetches := s.pendingFetches.map
        (fun f => if s.abortId = some f.id then { f with aborted := true } else f),
      isStopped := false,
      resultData := "",
      input := s.recentPrompt } := by
  simp only [stopGeneration]
  rw [if_pos hb]

/-- C3 counterexample: stopping after k = 1 > 0 revealed tokens does not
always commit those tokens.  With the service answer " a" (leading space), the
first token is the empty string; after one token fires the revealed text is
" ", `resultData.trim()` is falsy, and `stopGeneration` discards the exchange:
the session keeps exactly its one earlier message and the displayed history is
unchanged (only the question is restored into the input field). -/
theorem c3_counterexample_blank_token :
    (runOps [.send (some "q0"), .resolve 0 (.text "r"), .fire 1,
        .send (some "q1"), .resolve 1 (.text " a"), .fire 0]).map
        (fun s => (s.resultData, s.currentChatIndex)) = some (" ", some 0) ∧
    (runOps [.send (some "q0"), .resolve 0 (.text "r"), .fire 1,
        .send (some "q1"), .resolve 1 (.text " a"), .fire 0, .stop]).map
        (fun s => (s.chats.map (fun c => c.messages.length),
          s.conversationHistory.length, s.input)) = some ([1], 1, "q1") :=
  ⟨rfl, rfl⟩

/-- C3 (amended): playback of answer `msg` stopped after exactly `k` revealed
tokens.  The revealed text is the concatenation of exactly those `k` tokens,
each with its trailing separator.  `stopGeneration` commits exactly that text
as the answer of the exchange — appended to the session's messages (no memory
entry) and to the displayed history — iff the revealed text contains a
non-whitespace character; in particular for `k = 0` (blank revealed text) no
entry is recorded anywhere; in both cases the pending question is restored
into the input field.  (A valid committed active session is required: the
`activeIndex = none` case crashes, see C4.) -/
theorem c3_stop_truncation (s0 : State) (q msg : String) (k i : Nat) (c : Chat)
    (hfull : s0.currentChatIsFull = false)
    (hstop : s0.isStopped = false)
    (hidx : s0.currentChatIndex = some i)
    (hc : s0.chats[i]? = some c)
    (hfetch : s0.pendingFetches = [])
    (hk : k ≤ (jsSplitSpace msg).length) :
    ∃ s3, (sendStart (some q) s0).bind
        (fun s1 => (runOp (.resolve s0.nextId (.text msg)) s1).bind (fireHeadN k)) =
          some s3 ∧
      s3.resultData = revealedText msg k ∧
      s3.chats = s0.chats ∧
      (jsTrim (revealedText msg k) ≠ "" →
        ∃ s4, stopGeneration s3 = some s4 ∧
          s4.chats = s0.chats.set i
            { title := c.title,
              messages := c.messages ++
                [{ question := q, answer := some (revealedText msg k),
                   graph_path := none }],
              memory := c.memory, isMemoryFull := c.isMemoryFull } ∧
          s4.conversationHistory = s0.conversationHistory ++
            [{ question := q, answer := some (revealedText msg k), graph_path := none }] ∧
          s4.input = q) ∧
      (jsTrim (revealedText msg k) = "" →
        ∃ s4, stopGeneration s3 = some s4 ∧ s4.chats = s0.chats ∧
          s4.conversationHistory = s0.conversationHistory ∧ s4.input = q) := by
  have hpipe : (sendStart (some q) s0).bind
      (fun s1 => (runOp (.resolve s0.nextId (.text msg)) s1).bind (fireHeadN k)) =
      fireHeadN k { s0 with
        resultData := "", loading := true, showResult := true, isStopped := false,
        timeoutRefs := delayParaBatch false 0 (jsSplitSpace msg) ++
          [{ delay := 75 * (jsSplitSpace msg).length + 100, capturedStopped := false,
             kind := .finalize q msg (some i) }],
        recentPrompt := q, pendingFetches := [],
        abortId := some s0.nextId, nextId := s0.nextId + 1 } := by
    simp [sendStart, hfull, hidx, hc, hfetch, hstop, runOp, resolveFetch, removeFetch]
  have h3 := fireHeadN_delayPara k (jsSplitSpace msg) 0
      [{ delay := 75 * (jsSplitSpace msg).length + 100, capturedStopped := false,
         kind := .finalize q msg (some i) }]
      { s0 with
        resultData := "", loading := true, showResult := true, isStopped := false,
        timeoutRefs := delayParaBatch false 0 (jsSplitSpace msg) ++
          [{ delay := 75 * (jsSplitSpace msg).length + 100, capturedStopped := false,
             kind := .finalize q msg (some i) }],
        recentPrompt := q, pendingFetches := [],
        abortId := some s0.nextId, nextId := s0.nextId + 1 } rfl hk
  rw [hpipe, h3]
  refine ⟨_, rfl, rfl, rfl, ?_, ?_⟩
  · intro hnb
    exact ⟨_, stopGeneration_commit _ i c hidx hc hnb, rfl, rfl, rfl⟩
  · intro hb
    exact ⟨_, stopGeneration_discard _ hb, rfl, rfl, rfl⟩

/-- C3 witness: sending "q" on the one-chat state with answer "hi there" and
stopping after one token commits exactly "hi ". -/
theorem c3_stop_truncation_witness :
    ∃ s3, (sendStart (some "q") oneChatState).bind
        (fun s1 => (runOp (.resolve oneChatState.nextId (.text "hi there")) s1).bind
          (fireHeadN 1)) = some s3 ∧
      s3.resultData = revealedText "hi there" 1 ∧
      s3.chats = oneChatState.chats ∧
      (jsTrim (revealedText "hi there" 1) ≠ "" →
        ∃ s4, stopGeneration s3 = some s4 ∧
          s4.chats = oneChatState.chats.set 0
            { title := oneChat.title,
              messages := oneChat.messages ++
                [{ question := "q", answer := some (revealedText "hi there" 1),
                   graph_path := none }],
              memory := oneChat.memory, isMemoryFull := oneChat.isMemoryFull } ∧
          s4.conversationHistory = oneChatState.conversationHistory ++
            [{ question := "q", answer := some (revealedText "hi there" 1),
               graph_path := none }] ∧
          s4.input = "q") ∧
      (jsTrim (revealedText "hi there" 1) = "" →
        ∃ s4, stopGeneration s3 = some s4 ∧ s4.chats = oneChatState.chats ∧
          s4.conversationHistory = oneChatState.conversationHistory ∧ s4.input = "q") :=
  c3_stop_truncation oneChatState "q" "hi there" 1 0 oneChat rfl rfl rfl rfl rfl
    (by decide)
